import Mathlib

/-!
Verification development for the PE DOS-header decoder in `src/index.ts`
(drazisil/psychic-disco).

The source is a declarative binary-field decoder: a schema (`ImageDosHeader`,
an ordered list of field descriptors) is walked in one pass over a byte
buffer; each field's bytes are interpreted according to its `sizeType` and
the decoded value is written back into the descriptor.  A lifecycle wrapper
(`PE`) loads the file asynchronously and exposes `fileLoaded` /
`dosHeaderParsed` events.

Modelling conventions:
* A Node.js `Buffer` is a list of bytes plus an identity tag for the
  underlying allocation.  `Buffer.prototype.subarray` returns a view sharing
  the allocation (same `id`), exactly as Node documents; an independent copy
  would carry a fresh `id`.
* The `readUInt8/16LE/32LE/BigUInt64LE` family is modelled by `readUIntLE`,
  which succeeds on in-bounds reads and otherwise produces the
  `ERR_OUT_OF_RANGE` / `ERR_BUFFER_OUT_OF_BOUNDS` error Node throws
  (including its message text, built from the offset bounds only).
* The module-level mutable array `ImageDosHeader` that `parseDosHeader`
  aliases and updates in place is modelled by explicit state passing
  (`ModuleState`), and the event-driven lifecycle by a cooperative
  microtask queue (`World`, `runTask`, `run`).
-/

/-- A byte, as stored in a Node `Buffer`. -/
abbrev Byte := Fin 256

/-- A Node `Buffer`: its byte contents plus an identity tag for the backing
allocation.  Two buffers with the same `id` are views of one allocation. -/
structure NodeBuffer where
  data : List Byte
  id : Nat
deriving DecidableEq, Repr

/-- Numeric values of the `SizeConstants` enum (src/index.ts lines 4-12).
Note that `E_RES = 2 * 4` collides with `QWORD` (both are 8), exactly as in
the TypeScript enum; the decoder disambiguates that case by field name. -/
def SizeConstants.BYTE : Nat := 1

def SizeConstants.WORD : Nat := 2

def SizeConstants.DWORD : Nat := 4

def SizeConstants.QWORD : Nat := 8

def SizeConstants.STRING : Nat := 0

def SizeConstants.E_RES : Nat := 2 * 4

def SizeConstants.E_RES2 : Nat := 2 * 10

/-- The runtime value slot of a field descriptor
(`value: number | bigint | string | Buffer` in the source). -/
inductive FieldValue where
  /-- a JS `number` (template defaults and `readUInt8/16LE/32LE` results) -/
  | num (n : Nat)
  /-- a JS `bigint` (`readBigUInt64LE` result) -/
  | bignum (n : Nat)
  /-- a JS string -/
  | str (s : String)
  /-- a `Buffer` (the `subarray` results for reserved blocks) -/
  | bytes (b : NodeBuffer)
deriving DecidableEq, Repr

/-- A field descriptor (`BinaryFieldEntry` in the source). -/
structure BinaryFieldEntry where
  sizeType : Nat
  name : String
  description : Option String := none
  fileOffset : Nat
  value : FieldValue
  lengthOfString : Option Nat := none
deriving DecidableEq, Repr

/-- The error a failing buffer read throws.  Node's `boundsError` throws
`ERR_BUFFER_OUT_OF_BOUNDS` when the buffer is shorter than the read width,
and otherwise `ERR_OUT_OF_RANGE` carrying only the received offset and the
admissible range — no field name. -/
inductive DecodeError where
  | outOfRange (received : Nat) (maxAllowed : Int)
  | outsideBounds
deriving DecidableEq, Repr

/-- The message text of the thrown error, as Node formats it. -/
def DecodeError.message : DecodeError → String
  | .outOfRange received maxAllowed =>
      "The value of \"offset\" is out of range. It must be >= 0 and <= " ++
        toString maxAllowed ++ ". Received " ++ toString received
  | .outsideBounds => "Attempt to access memory outside buffer bounds"

/-- Little-endian unsigned value of `width` bytes starting at index `o`
(missing indices read as 0; reads are only taken in bounds). -/
def leValAt (data : List Byte) (o : Nat) : Nat → Nat
  | 0 => 0
  | width + 1 => (data.getD o 0).val + 256 * leValAt data (o + 1) width

/-- Common model of `Buffer.readUInt8 / readUInt16LE / readUInt32LE /
readBigUInt64LE` at the given width: an in-bounds read yields the
little-endian value, an out-of-bounds read throws exactly what Node's
`boundsError` throws. -/
def readUIntLE (buf : NodeBuffer) (offset width : Nat) : Except DecodeError Nat :=
  if offset + width ≤ buf.data.length then
    Except.ok (leValAt buf.data offset width)
  else if (buf.data.length : Int) - width < 0 then
    Except.error .outsideBounds
  else
    Except.error (.outOfRange offset ((buf.data.length : Int) - width))

/-- `Buffer.prototype.subarray(start, stop)` for non-negative arguments:
indices are clamped to the buffer length and the result is a view over the
same allocation (same `id`), not a copy. -/
def NodeBuffer.subarray (b : NodeBuffer) (start stop : Nat) : NodeBuffer :=
  { data := (b.data.take (min stop b.data.length)).drop (min start b.data.length),
    id := b.id }

/-- Models `Buffer.prototype.toString()` (UTF-8 decode).  Faithful for ASCII
bytes, which is all this development evaluates it on; for invalid UTF-8 Node
substitutes replacement characters where this maps the raw byte value.  Both
are total: `toString` never throws. -/
def bufToString (data : List Byte) : String :=
  String.mk (data.map fun b => Char.ofNat b.val)

/-- One processed field, as seen by the decode cursor: which field was read,
at which cursor position, and how many bytes it consumed. -/
structure ReadEvent where
  name : String
  offset : Nat
  width : Nat
deriving DecidableEq, Repr

/-- Result of running the decode loop: the final state of the descriptor
array, the final cursor, the processed fields in order, and the thrown
error if a read failed. -/
structure LoopResult where
  fields : List BinaryFieldEntry
  offset : Nat
  reads : List ReadEvent
  err : Option DecodeError
deriving DecidableEq, Repr

/-- One iteration of the `for (const field of dosHeader)` loop in
`parseDosHeader` (src/index.ts lines 219-273): the `switch` on `sizeType`,
including the name-based `e_res` branch inside the `QWORD` case (the enum
values `QWORD` and `E_RES` are both 8) and the fall-through behaviour of an
unmatched `sizeType` (the field is left untouched and the cursor does not
move). -/
def decodeField (buf : NodeBuffer) (offset : Nat) (f : BinaryFieldEntry) :
    Except DecodeError (BinaryFieldEntry × Nat × List ReadEvent) :=
  if f.sizeType = SizeConstants.BYTE then
    match readUIntLE buf offset 1 with
    | .ok v => .ok ({ f with value := .num v }, offset + 1, [⟨f.name, offset, 1⟩])
    | .error e => .error e
  else if f.sizeType = SizeConstants.WORD then
    match readUIntLE buf offset 2 with
    | .ok v => .ok ({ f with value := .num v }, offset + 2, [⟨f.name, offset, 2⟩])
    | .error e => .error e
  else if f.sizeType = SizeConstants.DWORD then
    match readUIntLE buf offset 4 with
    | .ok v => .ok ({ f with value := .num v }, offset + 4, [⟨f.name, offset, 4⟩])
    | .error e => .error e
  else if f.sizeType = SizeConstants.QWORD then
    if f.name = "e_res" then
      .ok ({ f with value := .bytes (buf.subarray offset (offset + SizeConstants.E_RES)) },
        offset + SizeConstants.E_RES, [⟨f.name, offset, SizeConstants.E_RES⟩])
    else
      match readUIntLE buf offset 8 with
      | .ok v => .ok ({ f with value := .bignum v }, offset + 8, [⟨f.name, offset, 8⟩])
      | .error e => .error e
  else if f.sizeType = SizeConstants.STRING then
    let lengthOfString := f.lengthOfString.getD 0
    let s := bufToString (buf.subarray offset (offset + lengthOfString)).data
    .ok ({ f with value := FieldValue.str s }, offset + lengthOfString,
      [⟨f.name, offset, lengthOfString⟩])
  else if f.sizeType = SizeConstants.E_RES2 then
    .ok ({ f with value := .bytes (buf.subarray offset (offset + SizeConstants.E_RES2)) },
      offset + SizeConstants.E_RES2, [⟨f.name, offset, SizeConstants.E_RES2⟩])
  else
    .ok (f, offset, [])

/-- The whole field loop of `parseDosHeader`.  On success every descriptor is
updated in order; when a read throws, the loop stops: the current field and
all later fields are left untouched (the in-place array keeps their previous
values) and the cursor stays where it was when the read threw. -/
def decodeLoop (buf : NodeBuffer) : List BinaryFieldEntry → Nat → LoopResult
  | [], offset => ⟨[], offset, [], none⟩
  | f :: fs, offset =>
    match decodeField buf offset f with
    | .ok (f', offset', ev) =>
      let r := decodeLoop buf fs offset'
      ⟨f' :: r.fields, r.offset, ev ++ r.reads, r.err⟩
    | .error e => ⟨f :: fs, offset, [], some e⟩

/-- `const ImageDosSignature = 0x5a4d` — declared in the source but never
consulted by the decoder (no signature validation is performed). -/
def ImageDosSignature : Nat := 0x5a4d

/-- `const ImageNtSignature = 0x00004550` — likewise unused. -/
def ImageNtSignature : Nat := 0x00004550

def dos_e_magic : BinaryFieldEntry :=
  { sizeType := SizeConstants.STRING, name := "e_magic", value := .str "",
    lengthOfString := some 2, description := some "Magic number", fileOffset := 0x0000 }

def dos_e_cblp : BinaryFieldEntry :=
  { sizeType := SizeConstants.WORD, name := "e_cblp", value := .num 0x0090,
    description := some "Bytes on last page of file", fileOffset := 0x0002 }

def dos_e_cp : BinaryFieldEntry :=
  { sizeType := SizeConstants.WORD, name := "e_cp", value := .num 0x0003,
    description := some "Pages in file", fileOffset := 0x0004 }

def dos_e_crlc : BinaryFieldEntry :=
  { sizeType := SizeConstants.WORD, name := "e_crlc", value := .num 0x0000,
    description := some "Relocations", fileOffset := 0x0006 }

def dos_e_cparhdr : BinaryFieldEntry :=
  { sizeType := SizeConstants.WORD, name := "e_cparhdr", value := .num 0x0004,
    description := some "Size of header in paragraphs", fileOffset := 0x0008 }

def dos_e_minalloc : BinaryFieldEntry :=
  { sizeType := SizeConstants.WORD, name := "e_minalloc", value := .num 0x0000,
    description := some "Minimum extra paragraphs needed", fileOffset := 0x000a }

def dos_e_maxalloc : BinaryFieldEntry :=
  { sizeType := SizeConstants.WORD, name := "e_maxalloc", value := .num 0xffff,
    description := some "Maximum extra paragraphs needed", fileOffset := 0x000c }

def dos_e_ss : BinaryFieldEntry :=
  { sizeType := SizeConstants.WORD, name := "e_ss", value := .num 0x0000,
    description := some "Initial (relative) SS value", fileOffset := 0x000e }

def dos_e_sp : BinaryFieldEntry :=
  { sizeType := SizeConstants.WORD, name := "e_sp", value := .num 0x00b8,
    description := some "Initial SP value", fileOffset := 0x0010 }

def dos_e_csum : BinaryFieldEntry :=
  { sizeType := SizeConstants.WORD, name := "e_csum", value := .num 0x0000,
    description := some "Checksum", fileOffset := 0x0012 }

def dos_e_ip : BinaryFieldEntry :=
  { sizeType := SizeConstants.WORD, name := "e_ip", value := .num 0x0000,
    description := some "Initial IP value", fileOffset := 0x0014 }

def dos_e_cs : BinaryFieldEntry :=
  { sizeType := SizeConstants.WORD, name := "e_cs", value := .num 0x0000,
    description := some "Initial (relative) CS value", fileOffset := 0x0016 }

def dos_e_lfarlc : BinaryFieldEntry :=
  { sizeType := SizeConstants.WORD, name := "e_lfarlc", value := .num 0x0040,
    description := some "File address of relocation table", fileOffset := 0x0018 }

def dos_e_ovno : BinaryFieldEntry :=
  { sizeType := SizeConstants.WORD, name := "e_ovno", value := .num 0x0000,
    description := some "Overlay number", fileOffset := 0x001a }

def dos_e_res : BinaryFieldEntry :=
  { sizeType := SizeConstants.E_RES, name := "e_res", value := .num 0x0000,
    description := some "Reserved words", fileOffset := 0x001c }

def dos_e_oemid : BinaryFieldEntry :=
  { sizeType := SizeConstants.WORD, name := "e_oemid", value := .num 0x0000,
    description := some "OEM identifier (for e_oeminfo)", fileOffset := 0x0024 }

def dos_e_oeminfo : BinaryFieldEntry :=
  { sizeType := SizeConstants.WORD, name := "e_oeminfo", value := .num 0x0000,
    description := some "OEM information; e_oemid specific", fileOffset := 0x0026 }

def dos_e_res2 : BinaryFieldEntry :=
  { sizeType := SizeConstants.E_RES2, name := "e_res2", value := .num 0x0000,
    description := some "Reserved words", fileOffset := 0x0028 }

def dos_e_lfanew : BinaryFieldEntry :=
  { sizeType := SizeConstants.DWORD, name := "e_lfanew", value := .num 0x00000080,
    description := some "File address of new exe header", fileOffset := 0x003c }

/-- The DOS header schema (src/index.ts lines 47-182): a module-level mutable
array of descriptor objects, given here in its initial (template) state. -/
def ImageDosHeader : List BinaryFieldEntry :=
  [dos_e_magic, dos_e_cblp, dos_e_cp, dos_e_crlc, dos_e_cparhdr, dos_e_minalloc,
   dos_e_maxalloc, dos_e_ss, dos_e_sp, dos_e_csum, dos_e_ip, dos_e_cs,
   dos_e_lfarlc, dos_e_ovno, dos_e_res, dos_e_oemid, dos_e_oeminfo, dos_e_res2,
   dos_e_lfanew]

/-- The mutable module-level state of `src/index.ts`: the `ImageDosHeader`
array whose field objects `parseDosHeader` mutates in place. -/
structure ModuleState where
  imageDosHeader : List BinaryFieldEntry
deriving DecidableEq, Repr

/-- Module state as of module load: the pristine template. -/
def initialModuleState : ModuleState := ⟨ImageDosHeader⟩

/-- `PE.parseDosHeader` (src/index.ts lines 215-277).  `const dosHeader =
ImageDosHeader` aliases the module-level array; the loop mutates its entries
in place; on success that same array is returned, and on a thrown read error
the partially updated array stays behind in module state while the call
rejects with the thrown error. -/
def parseDosHeaderM (m : ModuleState) (buf : NodeBuffer) :
    Except DecodeError (List BinaryFieldEntry) × ModuleState :=
  let r := decodeLoop buf m.imageDosHeader 0
  match r.err with
  | some e => (.error e, ⟨r.fields⟩)
  | none => (.ok r.fields, ⟨r.fields⟩)

/-- Value of the named field in a decoded schema (lookup helper). -/
def getField (fields : List BinaryFieldEntry) (n : String) : Option FieldValue :=
  (fields.find? fun f => f.name == n).map fun f => f.value

deriving instance DecidableEq for Except

/-- The width by which a successfully decoded field advances the cursor.
Read off the `switch` in `parseDosHeader`: every successful case advances by
an amount that depends only on the descriptor, never on the buffer (an
unmatched `sizeType` falls through without moving the cursor). -/
def fieldWidth (f : BinaryFieldEntry) : Nat :=
  if f.sizeType = SizeConstants.BYTE then 1
  else if f.sizeType = SizeConstants.WORD then 2
  else if f.sizeType = SizeConstants.DWORD then 4
  else if f.sizeType = SizeConstants.QWORD then 8
  else if f.sizeType = SizeConstants.STRING then f.lengthOfString.getD 0
  else if f.sizeType = SizeConstants.E_RES2 then 20
  else 0

/-- The fully populated DOS header schema expected for a buffer of length at
least 0x40: each descriptor keeps its metadata and receives the value decoded
from the buffer at its declared offset. -/
def decodedDosHeader (buf : NodeBuffer) : List BinaryFieldEntry :=
  [{ dos_e_magic with value := FieldValue.str (bufToString (buf.subarray 0 2).data) },
   { dos_e_cblp with value := FieldValue.num (leValAt buf.data 2 2) },
   { dos_e_cp with value := FieldValue.num (leValAt buf.data 4 2) },
   { dos_e_crlc with value := FieldValue.num (leValAt buf.data 6 2) },
   { dos_e_cparhdr with value := FieldValue.num (leValAt buf.data 8 2) },
   { dos_e_minalloc with value := FieldValue.num (leValAt buf.data 10 2) },
   { dos_e_maxalloc with value := FieldValue.num (leValAt buf.data 12 2) },
   { dos_e_ss with value := FieldValue.num (leValAt buf.data 14 2) },
   { dos_e_sp with value := FieldValue.num (leValAt buf.data 16 2) },
   { dos_e_csum with value := FieldValue.num (leValAt buf.data 18 2) },
   { dos_e_ip with value := FieldValue.num (leValAt buf.data 20 2) },
   { dos_e_cs with value := FieldValue.num (leValAt buf.data 22 2) },
   { dos_e_lfarlc with value := FieldValue.num (leValAt buf.data 24 2) },
   { dos_e_ovno with value := FieldValue.num (leValAt buf.data 26 2) },
   { dos_e_res with value := FieldValue.bytes (buf.subarray 28 36) },
   { dos_e_oemid with value := FieldValue.num (leValAt buf.data 36 2) },
   { dos_e_oeminfo with value := FieldValue.num (leValAt buf.data 38 2) },
   { dos_e_res2 with value := FieldValue.bytes (buf.subarray 40 60) },
   { dos_e_lfanew with value := FieldValue.num (leValAt buf.data 60 4) }]

/-- The sequence of field reads a complete decode performs: one per
descriptor, in descriptor order, each at the field's declared offset. -/
def dosReads : List ReadEvent :=
  [⟨"e_magic", 0, 2⟩, ⟨"e_cblp", 2, 2⟩, ⟨"e_cp", 4, 2⟩, ⟨"e_crlc", 6, 2⟩,
   ⟨"e_cparhdr", 8, 2⟩, ⟨"e_minalloc", 10, 2⟩, ⟨"e_maxalloc", 12, 2⟩,
   ⟨"e_ss", 14, 2⟩, ⟨"e_sp", 16, 2⟩, ⟨"e_csum", 18, 2⟩, ⟨"e_ip", 20, 2⟩,
   ⟨"e_cs", 22, 2⟩, ⟨"e_lfarlc", 24, 2⟩, ⟨"e_ovno", 26, 2⟩, ⟨"e_res", 28, 8⟩,
   ⟨"e_oemid", 36, 2⟩, ⟨"e_oeminfo", 38, 2⟩, ⟨"e_res2", 40, 20⟩,
   ⟨"e_lfanew", 60, 4⟩]

/-- Substring test on character lists: some split of the haystack starts
with the needle. -/
def listContainsSub (hay needle : List Char) : Bool :=
  (List.range (hay.length + 1)).any fun i => (hay.drop i).take needle.length == needle

/-- Substring test on strings (used to inspect error messages). -/
def strContains (hay needle : String) : Bool :=
  listContainsSub hay.data needle.data

/-!
Cooperative event-loop model of the `PE` lifecycle wrapper.

The source schedules four kinds of continuations; the JS microtask queue is
modelled as a FIFO list of `Task`s:
* `loadDone` — the `readFile(handle).then(buffer => ...)` callback from the
  constructor (lines 205-212): store the buffer, set `fileLoaded`, close the
  handle, `emit("fileLoaded")` (which synchronously resumes any suspended
  `once`-listener by scheduling its continuation);
* `parseAfterLoaded` — the body of `parse()` after (or without) its
  suspension on `fileLoaded` (lines 280-289): run `parseDosHeader()`, whose
  already-settled promise schedules the `.then` callback, after which the
  promise returned by `parse()` resolves, scheduling any awaiting consumer;
* `thenCb` — the `.then` callback that stores `this.dosHeader` and emits
  `dosHeaderParsed` (lines 286-289);
* `awaiterK` — a consumer continuation awaiting the promise returned by
  `parse()`; it snapshots what such a consumer observes.
-/
inductive JsTask where
  | loadDone
  | parseAfterLoaded
  | thenCb
  | awaiterK
deriving DecidableEq, Repr

/-- The instance fields of the `PE` class. -/
structure PEState where
  internalBuffer : NodeBuffer
  fileLoaded : Bool
  dosHeader : List BinaryFieldEntry
  /-- continuations registered via `this.once("fileLoaded", resolve)` -/
  onceFileLoaded : List JsTask
deriving DecidableEq, Repr

/-- Whole-program state for the lifecycle model: the `PE` instance, the
module-level schema array, the pending microtask queue, the log of emitted
event names in order, the file contents the pending I/O will deliver, the
value held by `parseDosHeader()`'s settled promise, and the consumer's
observation (decoded header and event log at the moment the consumer runs). -/
structure World where
  pe : PEState
  module : ModuleState
  queue : List JsTask
  log : List String
  fileBytes : NodeBuffer
  pendingDos : Option (List BinaryFieldEntry)
  observed : Option (List BinaryFieldEntry × List String)
deriving DecidableEq, Repr

/-- Execute one scheduled continuation against the world. -/
def runTask : JsTask → World → World
  | .loadDone, w =>
    -- lines 206-211: buffer stored, flag set, handle closed (no observable
    -- effect), then emit("fileLoaded") runs the registered once-listeners,
    -- whose resolve() calls schedule the suspended continuations in order.
    { w with
      pe := { w.pe with
              internalBuffer := w.fileBytes
              fileLoaded := true
              onceFileLoaded := [] }
      log := w.log ++ ["fileLoaded"]
      queue := w.queue ++ w.pe.onceFileLoaded }
  | .parseAfterLoaded, w =>
    -- lines 286-289: parseDosHeader() runs synchronously (its body never
    -- awaits); `.then` schedules its callback on the settled promise, and
    -- when the body of parse() then returns, the promise returned by
    -- parse() resolves, scheduling the awaiting consumer afterwards.
    let p := parseDosHeaderM w.module w.pe.internalBuffer
    match p.1 with
    | .ok s =>
      { w with
        module := p.2
        pendingDos := some s
        queue := w.queue ++ [.thenCb, .awaiterK] }
    | .error _ =>
      { w with module := p.2, queue := w.queue ++ [.awaiterK] }
  | .thenCb, w =>
    { w with
      pe := { w.pe with dosHeader := w.pendingDos.getD [] }
      log := w.log ++ ["dosHeaderParsed"] }
  | .awaiterK, w =>
    { w with observed := some (w.pe.dosHeader, w.log) }

/-- Run up to `fuel` tasks off the front of the queue (FIFO). -/
def run : Nat → World → World
  | 0, w => w
  | fuel + 1, w =>
    match w.queue with
    | [] => w
    | t :: rest => run fuel (runTask t { w with queue := rest })

/-- World right after `new PE(input)` returns (lines 200-213): empty buffer,
not loaded, no decoded header, and the asynchronous file read pending. -/
def constructedWorld (file : NodeBuffer) : World :=
  { pe := { internalBuffer := ⟨[], 0⟩, fileLoaded := false, dosHeader := [],
            onceFileLoaded := [] },
    module := initialModuleState,
    queue := [.loadDone],
    log := [],
    fileBytes := file,
    pendingDos := none,
    observed := none }

/-- A synchronous call to `parse()` with a consumer awaiting the returned
promise.  If the file is already loaded the body continues inline; otherwise
it suspends by registering a `once("fileLoaded")` listener whose resolution
will schedule the continuation (lines 280-284). -/
def invokeParse (w : World) : World :=
  if w.pe.fileLoaded then runTask .parseAfterLoaded w
  else
    { w with pe := { w.pe with onceFileLoaded := w.pe.onceFileLoaded ++ [.parseAfterLoaded] } }

/-- The end-to-end scenario: construct the aggregate, call `parse()` either
before the load completes (as `bin/index.ts` does) or after it, and drive
the event loop to quiescence. -/
def runScenario (parseBeforeLoad : Bool) (file : NodeBuffer) : World :=
  if parseBeforeLoad then run 10 (invokeParse (constructedWorld file))
  else run 10 (invokeParse (run 10 (constructedWorld file)))

/-- A 64-byte file whose DOS header carries `e_magic = "MZ"`,
`e_cblp = 0x0090` and `e_lfanew = 0x00000080` (the canonical DOS stub
values used by the template for the remaining fields). -/
def c2File : NodeBuffer :=
  ⟨[0x4d, 0x5a, 0x90, 0x00, 0x03, 0x00, 0x00, 0x00, 0x04, 0x00, 0x00, 0x00,
    0xff, 0xff, 0x00, 0x00, 0xb8, 0x00, 0x00, 0x00, 0x00, 0x00, 0x00, 0x00,
    0x40, 0x00, 0x00, 0x00, 0x00, 0x00, 0x00, 0x00, 0x00, 0x00, 0x00, 0x00,
    0x00, 0x00, 0x00, 0x00, 0x00, 0x00, 0x00, 0x00, 0x00, 0x00, 0x00, 0x00,
    0x00, 0x00, 0x00, 0x00, 0x00, 0x00, 0x00, 0x00, 0x00, 0x00, 0x00, 0x00,
    0x80, 0x00, 0x00, 0x00], 1⟩

/-- A 63-byte buffer (one byte short of the schema's 0x40-byte span). -/
def b63 : NodeBuffer := ⟨List.replicate 63 0x07, 2⟩

/-- A 64-byte buffer filled with `0x11` (used as the first of two decodes). -/
def bufA : NodeBuffer := ⟨List.replicate 64 0x11, 3⟩

/-- A 64-byte buffer filled with `0x22` (used as the second of two decodes). -/
def bufB : NodeBuffer := ⟨List.replicate 64 0x22, 4⟩

/-- The synthetic round-trip buffer: `"MZ"` at offset 0, bytes
`80 00 00 00` at offset 0x3c, and the distinctive pattern `i` at each other
index `i`. -/
def b5 : NodeBuffer :=
  ⟨[77, 90, 2, 3, 4, 5, 6, 7, 8, 9, 10, 11, 12, 13, 14, 15,
    16, 17, 18, 19, 20, 21, 22, 23, 24, 25, 26, 27, 28, 29, 30, 31,
    32, 33, 34, 35, 36, 37, 38, 39, 40, 41, 42, 43, 44, 45, 46, 47,
    48, 49, 50, 51, 52, 53, 54, 55, 56, 57, 58, 59, 128, 0, 0, 0], 9⟩

/-- A 64-byte buffer whose first two bytes are not `"MZ"` (all `0xAB`). -/
def c6buf : NodeBuffer := ⟨List.replicate 64 0xab, 5⟩

/-! ### General lemmas about the decode loop -/

theorem decodeField_ok_offset {buf : NodeBuffer} {o : Nat} {f : BinaryFieldEntry}
    {res : BinaryFieldEntry × Nat × List ReadEvent}
    (h : decodeField buf o f = .ok res) : res.2.1 = o + fieldWidth f := by
  unfold decodeField at h
  unfold fieldWidth
  split_ifs at h ⊢ with h1 h2 h3 h4 h5 h6 h7
  · cases hE : readUIntLE buf o 1 <;> rw [hE] at h <;> simp at h
    simp [← h]
  · cases hE : readUIntLE buf o 2 <;> rw [hE] at h <;> simp at h
    simp [← h]
  · cases hE : readUIntLE buf o 4 <;> rw [hE] at h <;> simp at h
    simp [← h]
  · simp at h
    simp [← h, SizeConstants.E_RES]
  · cases hE : readUIntLE buf o 8 <;> rw [hE] at h <;> simp at h
    simp [← h]
  · simp at h
    simp [← h]
  · simp at h
    simp [← h, SizeConstants.E_RES2]
  · simp at h
    simp [← h]

theorem decodeLoop_fields_length (buf : NodeBuffer) (fs : List BinaryFieldEntry) (o : Nat) :
    (decodeLoop buf fs o).fields.length = fs.length := by
  induction fs generalizing o with
  | nil => rfl
  | cons f fs ih =>
    unfold decodeLoop
    cases hE : decodeField buf o f with
    | ok r =>
      obtain ⟨f', o', ev⟩ := r
      simp [ih]
    | error e => simp

theorem decodeLoop_offset_of_ok (buf : NodeBuffer) (fs : List BinaryFieldEntry) (o : Nat)
    (h : (decodeLoop buf fs o).err = none) :
    (decodeLoop buf fs o).offset = o + (fs.map fieldWidth).sum := by
  induction fs generalizing o with
  | nil => simp [decodeLoop]
  | cons f fs ih =>
    unfold decodeLoop at h ⊢
    cases hE : decodeField buf o f with
    | ok r =>
      obtain ⟨f', o', ev⟩ := r
      rw [hE] at h
      simp only at h
      have hw : o' = o + fieldWidth f := decodeField_ok_offset hE
      subst hw
      have hrec := ih (o + fieldWidth f) h
      simp [hE, hrec]
      omega
    | error e =>
      rw [hE] at h
      simp at h

theorem decodeLoop_err_untouched_suffix (buf : NodeBuffer) (fs : List BinaryFieldEntry)
    (o : Nat) {e : DecodeError} (h : (decodeLoop buf fs o).err = some e) :
    ∃ n, n < fs.length ∧ (decodeLoop buf fs o).fields.drop n = fs.drop n := by
  induction fs generalizing o with
  | nil => simp [decodeLoop] at h
  | cons f fs ih =>
    unfold decodeLoop at h ⊢
    cases hE : decodeField buf o f with
    | ok r =>
      obtain ⟨f', o', ev⟩ := r
      rw [hE] at h
      simp only at h
      obtain ⟨n, hn, hdrop⟩ := ih o' h
      exact ⟨n + 1, by simpa using hn, by simpa using hdrop⟩
    | error e' =>
      exact ⟨0, by simp, by simp⟩

theorem decodeLoop_dos_complete (buf : NodeBuffer) (h : 64 ≤ buf.data.length) :
    decodeLoop buf ImageDosHeader 0 = ⟨decodedDosHeader buf, 64, dosReads, none⟩ := by
  have h4 : 4 ≤ buf.data.length := by omega
  have h6 : 6 ≤ buf.data.length := by omega
  have h8 : 8 ≤ buf.data.length := by omega
  have h10 : 10 ≤ buf.data.length := by omega
  have h12 : 12 ≤ buf.data.length := by omega
  have h14 : 14 ≤ buf.data.length := by omega
  have h16 : 16 ≤ buf.data.length := by omega
  have h18 : 18 ≤ buf.data.length := by omega
  have h20 : 20 ≤ buf.data.length := by omega
  have h22 : 22 ≤ buf.data.length := by omega
  have h24 : 24 ≤ buf.data.length := by omega
  have h26 : 26 ≤ buf.data.length := by omega
  have h28 : 28 ≤ buf.data.length := by omega
  have h38 : 38 ≤ buf.data.length := by omega
  have h40 : 40 ≤ buf.data.length := by omega
  simp [decodeLoop, decodeField, readUIntLE, ImageDosHeader, decodedDosHeader, dosReads,
    dos_e_magic, dos_e_cblp, dos_e_cp, dos_e_crlc, dos_e_cparhdr, dos_e_minalloc,
    dos_e_maxalloc, dos_e_ss, dos_e_sp, dos_e_csum, dos_e_ip, dos_e_cs, dos_e_lfarlc,
    dos_e_ovno, dos_e_res, dos_e_oemid, dos_e_oeminfo, dos_e_res2, dos_e_lfanew,
    SizeConstants.BYTE, SizeConstants.WORD, SizeConstants.DWORD, SizeConstants.QWORD,
    SizeConstants.STRING, SizeConstants.E_RES, SizeConstants.E_RES2,
    h, h4, h6, h8, h10, h12, h14, h16, h18, h20, h22, h24, h26, h28, h38, h40]

theorem decodeLoop_dos_short (buf : NodeBuffer) (h : buf.data.length = 63) :
    decodeLoop buf ImageDosHeader 0 =
      ⟨(decodedDosHeader buf).take 18 ++ [dos_e_lfanew], 60, dosReads.take 18,
       some (.outOfRange 60 59)⟩ := by
  simp [decodeLoop, decodeField, readUIntLE, ImageDosHeader, decodedDosHeader, dosReads,
    dos_e_magic, dos_e_cblp, dos_e_cp, dos_e_crlc, dos_e_cparhdr, dos_e_minalloc,
    dos_e_maxalloc, dos_e_ss, dos_e_sp, dos_e_csum, dos_e_ip, dos_e_cs, dos_e_lfarlc,
    dos_e_ovno, dos_e_res, dos_e_oemid, dos_e_oeminfo, dos_e_res2, dos_e_lfanew,
    SizeConstants.BYTE, SizeConstants.WORD, SizeConstants.DWORD, SizeConstants.QWORD,
    SizeConstants.STRING, SizeConstants.E_RES, SizeConstants.E_RES2, h]

/-! ### Claim theorems -/

/-- C7: width conservation — whenever the decode loop over the DOS header
schema completes (no read threw), its final cursor equals exactly 0x40,
and the schema it processed has exactly 19 fields. -/
theorem c7_width_conservation (buf : NodeBuffer)
    (h : (decodeLoop buf ImageDosHeader 0).err = none) :
    (decodeLoop buf ImageDosHeader 0).offset = 64 ∧ ImageDosHeader.length = 19 := by
  refine ⟨?_, by decide⟩
  rw [decodeLoop_offset_of_ok buf ImageDosHeader 0 h]
  decide

/-- C7 witness: the all-0xAB 64-byte buffer decodes completely and the
cursor lands on 0x40. -/
theorem c7_width_conservation_witness :
    (decodeLoop c6buf ImageDosHeader 0).err = none ∧
      ((decodeLoop c6buf ImageDosHeader 0).offset = 64 ∧ ImageDosHeader.length = 19) :=
  ⟨by decide, c7_width_conservation c6buf (by decide)⟩

/-- C8: offset invariant — every descriptor's declared `fileOffset` equals
the sum of the decode widths of all preceding fields in the DOS header
schema, independently of any buffer. -/
theorem c8_offset_invariant :
    ∀ i, i < ImageDosHeader.length →
      (ImageDosHeader.getD i dos_e_magic).fileOffset =
        ((ImageDosHeader.take i).map fieldWidth).sum := by decide

/-- C8 witness: the invariant at the last field, `e_lfanew` (index 18). -/
theorem c8_offset_invariant_witness :
    18 < ImageDosHeader.length ∧
      (ImageDosHeader.getD 18 dos_e_magic).fileOffset =
        ((ImageDosHeader.take 18).map fieldWidth).sum :=
  ⟨by decide, c8_offset_invariant 18 (by decide)⟩

/-- C10: no content validation — every buffer of length at least 0x40
decodes without error, whatever its bytes, and yields the fully populated
schema; no error branch is reachable at that length. -/
theorem c10_no_validation (buf : NodeBuffer) (h : 64 ≤ buf.data.length) :
    (decodeLoop buf ImageDosHeader 0).err = none ∧
      (decodeLoop buf ImageDosHeader 0).fields = decodedDosHeader buf := by
  rw [decodeLoop_dos_complete buf h]
  exact ⟨rfl, rfl⟩

/-- C10 witness: the all-0xAB buffer — whose first two bytes are not "MZ" —
still decodes fully without error. -/
theorem c10_no_validation_witness :
    64 ≤ c6buf.data.length ∧
      ((decodeLoop c6buf ImageDosHeader 0).err = none ∧
        (decodeLoop c6buf ImageDosHeader 0).fields = decodedDosHeader c6buf) :=
  ⟨by decide, c10_no_validation c6buf (by decide)⟩

/-- C1 counterexample: a 63-byte buffer fails decode, but with Node's generic
out-of-range error, which reports the offset 0x3c (received 60, max 59) and
does not mention the field name `e_lfanew` anywhere in its message —
refuting the claim that the error reports the unsatisfiable field. -/
theorem c1_counterexample :
    (decodeLoop b63 ImageDosHeader 0).err = some (.outOfRange 60 59) ∧
      strContains (DecodeError.outOfRange 60 59).message "e_lfanew" = false := by
  decide

/-- C1 amended: a buffer of length at least 0x40 decodes completely,
populating every field; a buffer of length exactly 0x3f fails after the
first 18 fields with an out-of-range error whose reported offset 0x3c is
`e_lfanew`'s declared offset — the error carries the offset but not the
field name. -/
theorem c1_amended :
    (∀ buf : NodeBuffer, 64 ≤ buf.data.length →
        decodeLoop buf ImageDosHeader 0 = ⟨decodedDosHeader buf, 64, dosReads, none⟩) ∧
      (∀ buf : NodeBuffer, buf.data.length = 63 →
        (decodeLoop buf ImageDosHeader 0).err = some (.outOfRange 60 59) ∧
          (decodeLoop buf ImageDosHeader 0).reads = dosReads.take 18 ∧
          dos_e_lfanew.fileOffset = 60) := by
  refine ⟨decodeLoop_dos_complete, fun buf h => ?_⟩
  rw [decodeLoop_dos_short buf h]
  exact ⟨rfl, rfl, rfl⟩

/-- C1 witness: the canonical 64-byte stub succeeds; the 63-byte buffer
fails with the out-of-range error. -/
theorem c1_amended_witness :
    decodeLoop c2File ImageDosHeader 0 = ⟨decodedDosHeader c2File, 64, dosReads, none⟩ ∧
      (decodeLoop b63 ImageDosHeader 0).err = some (.outOfRange 60 59) :=
  ⟨c1_amended.1 c2File (by decide), (c1_amended.2 b63 (by decide)).1⟩

/-- C3 counterexample: decode bufA (succeeds — the returned schema is the
module-level array itself), then decode the 63-byte b63 against the same
module state: that call fails, yet the observable schema is half-populated —
`e_cblp` already holds b63's bytes (0x0707 = 1799) while `e_lfanew` still
holds bufA's value (0x11111111 = 286331153). -/
theorem c3_counterexample :
    (parseDosHeaderM initialModuleState bufA).1 =
        .ok (parseDosHeaderM initialModuleState bufA).2.imageDosHeader ∧
      (parseDosHeaderM (parseDosHeaderM initialModuleState bufA).2 b63).1 =
        .error (.outOfRange 60 59) ∧
      getField
          (parseDosHeaderM (parseDosHeaderM initialModuleState bufA).2 b63).2.imageDosHeader
          "e_cblp" = some (.num 1799) ∧
      getField
          (parseDosHeaderM (parseDosHeaderM initialModuleState bufA).2 b63).2.imageDosHeader
          "e_lfanew" = some (.num 286331153) := by
  decide

/-- C3 amended: a failing decode returns only the error — no schema value is
handed back — but the shared schema array is left partially updated: there
is an index strictly inside the schema from which on the previous entries
survive untouched (the fields before it have been overwritten in place with
the failing buffer's values). -/
theorem c3_amended (m : ModuleState) (buf : NodeBuffer) (e : DecodeError)
    (h : (parseDosHeaderM m buf).1 = .error e) :
    (∀ s, (parseDosHeaderM m buf).1 ≠ .ok s) ∧
      ∃ n, n < m.imageDosHeader.length ∧
        (parseDosHeaderM m buf).2.imageDosHeader.drop n = m.imageDosHeader.drop n := by
  simp only [parseDosHeaderM] at h ⊢
  cases hr : (decodeLoop buf m.imageDosHeader 0).err with
  | none => simp [hr] at h
  | some e' =>
    obtain ⟨n, hn, hd⟩ := decodeLoop_err_untouched_suffix buf m.imageDosHeader 0 hr
    exact ⟨by simp, n, hn, by simpa using hd⟩

/-- C3 witness: the amended statement instantiated at the pristine template
and the 63-byte buffer. -/
theorem c3_amended_witness :
    (∀ s, (parseDosHeaderM initialModuleState b63).1 ≠ .ok s) ∧
      ∃ n, n < initialModuleState.imageDosHeader.length ∧
        (parseDosHeaderM initialModuleState b63).2.imageDosHeader.drop n =
          initialModuleState.imageDosHeader.drop n :=
  c3_amended initialModuleState b63 (.outOfRange 60 59) (by decide)

/-- C4 counterexample: decoding silently mutates the shared module-level
schema (the module state after decoding bufA differs from the template), and
reuse across buffers overwrites: the same shared array that exposed bufA's
`e_cblp` (0x1111 = 4369) after the first decode exposes bufB's
(0x2222 = 8738) after the second — and the first caller's returned schema is
that very array. -/
theorem c4_counterexample :
    (parseDosHeaderM initialModuleState bufA).2 ≠ initialModuleState ∧
      (parseDosHeaderM initialModuleState bufA).1 =
        .ok (parseDosHeaderM initialModuleState bufA).2.imageDosHeader ∧
      getField (parseDosHeaderM initialModuleState bufA).2.imageDosHeader "e_cblp" =
        some (.num 4369) ∧
      getField
          (parseDosHeaderM (parseDosHeaderM initialModuleState bufA).2 bufB).2.imageDosHeader
          "e_cblp" = some (.num 8738) := by
  decide

/-- C4 amended: the decoded values are a function of the schema template and
the buffer (from the pristine template, any buffer of length at least 0x40
yields exactly `decodedDosHeader buf`), but the schema a successful call
returns is the module-level array itself, mutated in place — so schema
reuse across buffers aliases the one shared array. -/
theorem c4_amended :
    (∀ (m : ModuleState) (buf : NodeBuffer) (s : List BinaryFieldEntry),
        (parseDosHeaderM m buf).1 = .ok s →
          s = (parseDosHeaderM m buf).2.imageDosHeader) ∧
      (∀ buf : NodeBuffer, 64 ≤ buf.data.length →
        (parseDosHeaderM initialModuleState buf).1 = .ok (decodedDosHeader buf)) := by
  constructor
  · intro m buf s h
    simp only [parseDosHeaderM] at h ⊢
    cases hr : (decodeLoop buf m.imageDosHeader 0).err with
    | none => simp at h ⊢; simp_all
    | some e' => simp [hr] at h
  · intro buf h
    simp only [parseDosHeaderM, initialModuleState]
    rw [decodeLoop_dos_complete buf h]

/-- C4 witness: the amended statement instantiated at bufB. -/
theorem c4_amended_witness :
    decodedDosHeader bufB = (parseDosHeaderM initialModuleState bufB).2.imageDosHeader ∧
      (parseDosHeaderM initialModuleState bufB).1 = .ok (decodedDosHeader bufB) :=
  ⟨c4_amended.1 initialModuleState bufB (decodedDosHeader bufB) (by decide),
   c4_amended.2 bufB (by decide)⟩

/-- C5: round-trip on the synthetic buffer b5 ("MZ" at offset 0, bytes
80 00 00 00 at offset 0x3c, pattern byte i at every other index i): e_magic
decodes to "MZ", e_lfanew to 128, e_cblp to its little-endian pattern 770,
e_res to its exact byte run, and the whole schema is recovered exactly; in
general every WORD and DWORD field of a complete decode is the little-endian
unsigned integer of the buffer's bytes at the field's declared offset. -/
theorem c5_round_trip :
    getField (decodeLoop b5 ImageDosHeader 0).fields "e_magic" = some (.str "MZ") ∧
      getField (decodeLoop b5 ImageDosHeader 0).fields "e_lfanew" = some (.num 128) ∧
      getField (decodeLoop b5 ImageDosHeader 0).fields "e_cblp" = some (.num 770) ∧
      getField (decodeLoop b5 ImageDosHeader 0).fields "e_res" =
        some (.bytes ⟨[28, 29, 30, 31, 32, 33, 34, 35], 9⟩) ∧
      (decodeLoop b5 ImageDosHeader 0).fields = decodedDosHeader b5 ∧
      (∀ buf : NodeBuffer, 64 ≤ buf.data.length →
        ∀ f ∈ (decodeLoop buf ImageDosHeader 0).fields,
          (f.sizeType = SizeConstants.WORD →
            f.value = .num (leValAt buf.data f.fileOffset 2)) ∧
          (f.sizeType = SizeConstants.DWORD →
            f.value = .num (leValAt buf.data f.fileOffset 4))) := by
  refine ⟨by decide, by decide, by decide, by decide, by decide, ?_⟩
  intro buf h f hf
  rw [decodeLoop_dos_complete buf h] at hf
  simp only [decodedDosHeader, List.mem_cons, List.not_mem_nil, or_false] at hf
  rcases hf with rfl | rfl | rfl | rfl | rfl | rfl | rfl | rfl | rfl | rfl | rfl | rfl |
    rfl | rfl | rfl | rfl | rfl | rfl | rfl <;>
    refine ⟨fun hs => ?_, fun hs => ?_⟩ <;>
      first
        | rfl
        | simp [dos_e_magic, dos_e_cblp, dos_e_cp, dos_e_crlc, dos_e_cparhdr,
            dos_e_minalloc, dos_e_maxalloc, dos_e_ss, dos_e_sp, dos_e_csum, dos_e_ip,
            dos_e_cs, dos_e_lfarlc, dos_e_ovno, dos_e_res, dos_e_oemid, dos_e_oeminfo,
            dos_e_res2, dos_e_lfanew, SizeConstants.WORD, SizeConstants.DWORD,
            SizeConstants.STRING, SizeConstants.E_RES, SizeConstants.E_RES2] at hs

/-- C5 witness: the general little-endian clause instantiated at b5 and its
e_cblp descriptor. -/
theorem c5_round_trip_witness :
    ∀ f ∈ (decodeLoop b5 ImageDosHeader 0).fields,
      (f.sizeType = SizeConstants.WORD →
        f.value = .num (leValAt b5.data f.fileOffset 2)) ∧
      (f.sizeType = SizeConstants.DWORD →
        f.value = .num (leValAt b5.data f.fileOffset 4)) :=
  c5_round_trip.2.2.2.2.2 b5 (by decide)

/-- C6 counterexample: the e_res value decoded from the all-0xAB buffer is a
subarray view whose identity tag (5) equals the source buffer's — it
references the same allocation, not an independent copy of the bytes. -/
theorem c6_counterexample :
    getField (decodeLoop c6buf ImageDosHeader 0).fields "e_res" =
        some (.bytes ⟨List.replicate 8 0xab, 5⟩) ∧
      c6buf.id = 5 := by
  decide

/-- C6 amended: for every buffer of length at least 0x40, the decoded e_res
and e_res2 are raw byte runs of exactly 8 and 20 bytes, never numerically
interpreted — but each is a subarray view sharing the source buffer's
allocation (same identity tag), not an independent copy. -/
theorem c6_amended (buf : NodeBuffer) (h : 64 ≤ buf.data.length) :
    getField (decodeLoop buf ImageDosHeader 0).fields "e_res" =
        some (.bytes (buf.subarray 28 36)) ∧
      (buf.subarray 28 36).data.length = 8 ∧
      (buf.subarray 28 36).id = buf.id ∧
      getField (decodeLoop buf ImageDosHeader 0).fields "e_res2" =
        some (.bytes (buf.subarray 40 60)) ∧
      (buf.subarray 40 60).data.length = 20 ∧
      (buf.subarray 40 60).id = buf.id := by
  rw [decodeLoop_dos_complete buf h]
  refine ⟨?_, ?_, rfl, ?_, ?_, rfl⟩
  · simp [getField, decodedDosHeader, List.find?, dos_e_magic, dos_e_cblp, dos_e_cp,
      dos_e_crlc, dos_e_cparhdr, dos_e_minalloc, dos_e_maxalloc, dos_e_ss, dos_e_sp,
      dos_e_csum, dos_e_ip, dos_e_cs, dos_e_lfarlc, dos_e_ovno, dos_e_res]
  · simp [NodeBuffer.subarray]
    omega
  · simp [getField, decodedDosHeader, List.find?, dos_e_magic, dos_e_cblp, dos_e_cp,
      dos_e_crlc, dos_e_cparhdr, dos_e_minalloc, dos_e_maxalloc, dos_e_ss, dos_e_sp,
      dos_e_csum, dos_e_ip, dos_e_cs, dos_e_lfarlc, dos_e_ovno, dos_e_res, dos_e_oemid,
      dos_e_oeminfo, dos_e_res2]
  · simp [NodeBuffer.subarray]
    omega

/-- C6 witness: the amended statement instantiated at b5. -/
theorem c6_amended_witness :
    getField (decodeLoop b5 ImageDosHeader 0).fields "e_res" =
        some (.bytes (b5.subarray 28 36)) ∧
      (b5.subarray 28 36).data.length = 8 ∧
      (b5.subarray 28 36).id = b5.id ∧
      getField (decodeLoop b5 ImageDosHeader 0).fields "e_res2" =
        some (.bytes (b5.subarray 40 60)) ∧
      (b5.subarray 40 60).data.length = 20 ∧
      (b5.subarray 40 60).id = b5.id :=
  c6_amended b5 (by decide)

/-- C2: end-to-end — over a file whose first 64 bytes form a valid DOS header
with e_magic "MZ", e_cblp 0x0090 and e_lfanew 0x00000080, whether parse() is
invoked before or after the load completes, the consumer awaiting the
promise returned by parse() observes the decoded header exposing
e_magic "MZ", e_cblp 144 and e_lfanew 128, with the fileLoaded and
dosHeaderParsed notifications each fired exactly once, in that order, by
that point (resolution of the promise is observed by its awaiting
continuation, which the microtask queue runs after the `.then` callback). -/
theorem c2_end_to_end (parseBeforeLoad : Bool) :
    (runScenario parseBeforeLoad c2File).observed =
        some (decodedDosHeader c2File, ["fileLoaded", "dosHeaderParsed"]) ∧
      getField (decodedDosHeader c2File) "e_magic" = some (.str "MZ") ∧
      getField (decodedDosHeader c2File) "e_cblp" = some (.num 144) ∧
      getField (decodedDosHeader c2File) "e_lfanew" = some (.num 128) ∧
      (runScenario parseBeforeLoad c2File).log = ["fileLoaded", "dosHeaderParsed"] := by
  cases parseBeforeLoad <;>
    exact ⟨by decide, by decide, by decide, by decide, by decide⟩

/-- C9: ordering — a parse() invoked before the load completes starts no
decode (the module schema is untouched, the file is not loaded); it suspends
by registering a single once-listener for fileLoaded rather than polling or
erroring; after one scheduler step the fileLoaded notification has fired and
only then is the decode continuation queued; and within the schema a
complete decode processes the fields strictly in descriptor order, one read
per descriptor at its declared offset, without error. -/
theorem c9_ordering :
    (∀ file : NodeBuffer,
        (invokeParse (constructedWorld file)).pe.fileLoaded = false ∧
        (invokeParse (constructedWorld file)).module = initialModuleState ∧
        (invokeParse (constructedWorld file)).pe.onceFileLoaded = [JsTask.parseAfterLoaded] ∧
        (invokeParse (constructedWorld file)).queue = [JsTask.loadDone] ∧
        (run 1 (invokeParse (constructedWorld file))).log = ["fileLoaded"] ∧
        (run 1 (invokeParse (constructedWorld file))).module = initialModuleState ∧
        (run 1 (invokeParse (constructedWorld file))).queue = [JsTask.parseAfterLoaded]) ∧
      (∀ buf : NodeBuffer, 64 ≤ buf.data.length →
        (decodeLoop buf ImageDosHeader 0).reads.map ReadEvent.name =
            ImageDosHeader.map BinaryFieldEntry.name ∧
          (decodeLoop buf ImageDosHeader 0).reads.map ReadEvent.offset =
            ImageDosHeader.map BinaryFieldEntry.fileOffset ∧
          (decodeLoop buf ImageDosHeader 0).err = none) := by
  constructor
  · intro file
    exact ⟨rfl, rfl, rfl, rfl, rfl, rfl, rfl⟩
  · intro buf h
    rw [decodeLoop_dos_complete buf h]
    refine ⟨?_, ?_, rfl⟩
    · show dosReads.map ReadEvent.name = ImageDosHeader.map BinaryFieldEntry.name
      decide
    · show dosReads.map ReadEvent.offset = ImageDosHeader.map BinaryFieldEntry.fileOffset
      decide

/-- C9 witness: the descriptor-order clause instantiated at the all-0x11
buffer. -/
theorem c9_ordering_witness :
    (decodeLoop bufA ImageDosHeader 0).reads.map ReadEvent.name =
        ImageDosHeader.map BinaryFieldEntry.name ∧
      (decodeLoop bufA ImageDosHeader 0).reads.map ReadEvent.offset =
        ImageDosHeader.map BinaryFieldEntry.fileOffset ∧
      (decodeLoop bufA ImageDosHeader 0).err = none :=
  c9_ordering.2 bufA (by decide)
